/-
Verification of the echo-ai client real-time orchestration layer.

Shallow embedding of the hooks of the repository:
  * useSilenceDetection.ts  — pause & cooldown detector
  * useSpeechRecognition.ts — turn buffer and transcription retry controller
  * useWebSocket.ts         — reconnecting transport and snapshot minimization
  * useStreamingAudio.ts    — streaming playback scheduler

Timestamps and durations are embedded as `Int` (JavaScript millisecond
clock values); audio-engine clock values and decoded durations as `ℚ`
(JavaScript float seconds).  JavaScript truthiness tests on nullable
numbers (`if (x)`) are embedded by `truthy`, which is false for `none`
and for `some 0`.
-/
import Mathlib

namespace EchoAI

/-! ## Pause & cooldown detector — src/echo-ai/src/hooks/useSilenceDetection.ts -/

structure SilenceCfg where
  silenceThreshold : Int
  cooldownPeriod : Int
deriving DecidableEq

structure SilenceState where
  lastSpokenAt : Option Int
  pauseTriggered : Bool
  lastSuggestionTime : Option Int
  silenceDuration : Int
  isPaused : Bool
  isInCooldown : Bool
deriving DecidableEq

/-- JavaScript truthiness of a nullable number: `null` and `0` are falsy. -/
def truthy : Option Int → Bool
  | none => false
  | some t => t != 0

/-- The cooldown test of the tick handler (useSilenceDetection.ts lines 106-111):
`cooldownPeriod > 0 && lastSuggestionTimeRef.current &&
 now - lastSuggestionTimeRef.current < cooldownPeriod`. -/
def cooldownBlocks (cfg : SilenceCfg) (s : SilenceState) (now : Int) : Bool :=
  decide (0 < cfg.cooldownPeriod) && truthy s.lastSuggestionTime &&
    decide (now - s.lastSuggestionTime.getD 0 < cfg.cooldownPeriod)

/-- One firing of the 100 ms interval callback (useSilenceDetection.ts lines
86-120).  Returns the updated state and whether `onPauseDetected` was invoked. -/
def silenceTick (cfg : SilenceCfg) (s : SilenceState) (now : Int) : SilenceState × Bool :=
  let s1 :=
    if 0 < cfg.cooldownPeriod ∧ truthy s.lastSuggestionTime = true then
      { s with isInCooldown := decide (now - s.lastSuggestionTime.getD 0 < cfg.cooldownPeriod) }
    else s
  if truthy s1.lastSpokenAt = true then
    let silence := now - s1.lastSpokenAt.getD 0
    let s2 := { s1 with silenceDuration := silence }
    if cfg.silenceThreshold ≤ silence ∧ s2.pauseTriggered = false then
      if cooldownBlocks cfg s2 now = true then
        (s2, false)
      else
        ({ s2 with pauseTriggered := true, isPaused := true }, true)
    else (s2, false)
  else (s1, false)

/-- The `lastSpokenAt` effect (useSilenceDetection.ts lines 58-72): a new truthy
timestamp different from the stored one advances the episode and clears the
triggered flag. -/
def speak (s : SilenceState) (t : Int) : SilenceState :=
  if t ≠ 0 ∧ some t ≠ s.lastSpokenAt then
    { s with lastSpokenAt := some t, pauseTriggered := false, isPaused := false }
  else s

/-- `resetPause` (useSilenceDetection.ts lines 129-134). -/
def resetPause (s : SilenceState) (now : Int) : SilenceState :=
  { s with isPaused := false, pauseTriggered := false,
           lastSpokenAt := some now, silenceDuration := 0 }

/-- `updateLastSuggestionTime` (useSilenceDetection.ts lines 48-55). -/
def updateLastSuggestionTime (cfg : SilenceCfg) (s : SilenceState) (now : Int) : SilenceState :=
  if cfg.cooldownPeriod ≤ 0 then s
  else { s with lastSuggestionTime := some now, isInCooldown := true }

/-- The not-listening branch of the tracking effect (lines 76-83). -/
def stopListeningReset (s : SilenceState) : SilenceState :=
  { s with silenceDuration := 0, isPaused := false, pauseTriggered := false }

/-- A run of consecutive detector ticks (one silence episode: no `speak` event
in between).  Returns the final state and the times at which the callback fired. -/
def tickRun (cfg : SilenceCfg) (s : SilenceState) : List Int → SilenceState × List Int
  | [] => (s, [])
  | t :: ts =>
    let step := silenceTick cfg s t
    let rest := tickRun cfg step.1 ts
    (rest.1, if step.2 then t :: rest.2 else rest.2)

/-- The displayed progress ratio (src/unnamed/part_003 line 190):
`isInCooldown ? 0 : Math.min(silenceDuration / SILENCE_THRESHOLD, 1)`. -/
def silenceProgress (isInCooldown : Bool) (silenceDuration silenceThreshold : ℚ) : ℚ :=
  if isInCooldown then 0 else min (silenceDuration / silenceThreshold) 1

/-! ### Helper lemmas about the detector -/

theorem silenceTick_lastSpokenAt (cfg : SilenceCfg) (s : SilenceState) (now : Int) :
    (silenceTick cfg s now).1.lastSpokenAt = s.lastSpokenAt := by
  simp only [silenceTick]
  split_ifs <;> rfl

theorem silenceTick_lastSuggestionTime (cfg : SilenceCfg) (s : SilenceState) (now : Int) :
    (silenceTick cfg s now).1.lastSuggestionTime = s.lastSuggestionTime := by
  simp only [silenceTick]
  split_ifs <;> rfl

theorem silenceTick_triggered_eq (cfg : SilenceCfg) (s : SilenceState) (now : Int) :
    (silenceTick cfg s now).1.pauseTriggered = (s.pauseTriggered || (silenceTick cfg s now).2) := by
  simp only [silenceTick]
  split_ifs <;> simp_all

theorem silenceTick_triggered_mono (cfg : SilenceCfg) (s : SilenceState) (now : Int)
    (h : s.pauseTriggered = true) : (silenceTick cfg s now).1.pauseTriggered = true := by
  rw [silenceTick_triggered_eq, h, Bool.true_or]

theorem silenceTick_fired_triggered (cfg : SilenceCfg) (s : SilenceState) (now : Int)
    (h : (silenceTick cfg s now).2 = true) : (silenceTick cfg s now).1.pauseTriggered = true := by
  rw [silenceTick_triggered_eq, h, Bool.or_true]

theorem silenceTick_not_triggered_no_fire (cfg : SilenceCfg) (s : SilenceState) (now : Int)
    (h : s.pauseTriggered = true) : (silenceTick cfg s now).2 = false := by
  simp only [silenceTick]
  split_ifs <;> simp_all

theorem tickRun_triggered_no_fires (cfg : SilenceCfg) (ts : List Int) (s : SilenceState)
    (h : s.pauseTriggered = true) : (tickRun cfg s ts).2 = [] := by
  induction ts generalizing s with
  | nil => rfl
  | cons t ts ih =>
    simp only [tickRun, silenceTick_not_triggered_no_fire cfg s t h]
    simpa using ih _ (silenceTick_triggered_mono cfg s t h)

theorem cooldownBlocks_congr (cfg : SilenceCfg) (s s' : SilenceState) (now : Int)
    (h : s.lastSuggestionTime = s'.lastSuggestionTime) :
    cooldownBlocks cfg s now = cooldownBlocks cfg s' now := by
  simp only [cooldownBlocks, h]

theorem silenceTick_fired_eq (cfg : SilenceCfg) (s : SilenceState) (now : Int) :
    (silenceTick cfg s now).2 =
      (truthy s.lastSpokenAt && decide (cfg.silenceThreshold ≤ now - s.lastSpokenAt.getD 0)
        && !s.pauseTriggered && !cooldownBlocks cfg s now) := by
  simp only [silenceTick, cooldownBlocks]
  split_ifs <;> simp_all
  rename_i hnocd _ _
  rcases lt_or_le 0 cfg.cooldownPeriod with h | h
  · exact Or.inl (Or.inr (hnocd h))
  · exact Or.inl (Or.inl h)

theorem silenceTick_isInCooldown_eq (cfg : SilenceCfg) (s : SilenceState) (now : Int) :
    (silenceTick cfg s now).1.isInCooldown =
      if 0 < cfg.cooldownPeriod ∧ truthy s.lastSuggestionTime = true then
        decide (now - s.lastSuggestionTime.getD 0 < cfg.cooldownPeriod)
      else s.isInCooldown := by
  simp only [silenceTick]
  split_ifs <;> rfl

theorem silenceTick_silenceDuration_eq (cfg : SilenceCfg) (s : SilenceState) (now : Int) :
    (silenceTick cfg s now).1.silenceDuration =
      if truthy s.lastSpokenAt = true then now - s.lastSpokenAt.getD 0
      else s.silenceDuration := by
  simp only [silenceTick]
  split_ifs <;> rfl

theorem tickRun_fires_length_le_one (cfg : SilenceCfg) (ts : List Int) (s : SilenceState) :
    ((tickRun cfg s ts).2).length ≤ 1 := by
  induction ts generalizing s with
  | nil => simp [tickRun]
  | cons t ts ih =>
    simp only [tickRun]
    rcases hf : (silenceTick cfg s t).2 with _ | _
    · simpa [hf] using ih (silenceTick cfg s t).1
    · have h0 : (tickRun cfg (silenceTick cfg s t).1 ts).2 = [] :=
        tickRun_triggered_no_fires cfg ts _ (silenceTick_fired_triggered cfg s t hf)
      simp [hf, h0]

theorem tickRun_fires_eq_find (cfg : SilenceCfg) (L : Int) (hL : L ≠ 0) :
    ∀ (ts : List Int) (s : SilenceState), s.lastSpokenAt = some L →
      s.pauseTriggered = false →
      (∀ t ∈ ts, cooldownBlocks cfg s t = false) →
      (tickRun cfg s ts).2
        = (ts.find? (fun t => decide (cfg.silenceThreshold ≤ t - L))).toList := by
  intro ts
  induction ts with
  | nil => intro s _ _ _; rfl
  | cons t ts ih =>
    intro s hsp htr hcd
    have htru : truthy s.lastSpokenAt = true := by simp [hsp, truthy, hL]
    have hcd0 : cooldownBlocks cfg s t = false := hcd t (by simp)
    simp only [tickRun]
    by_cases hth : cfg.silenceThreshold ≤ t - L
    · have hfire : (silenceTick cfg s t).2 = true := by
        rw [silenceTick_fired_eq, htru, htr, hcd0]
        simp [hsp, hth]
      have hrest : (tickRun cfg (silenceTick cfg s t).1 ts).2 = [] :=
        tickRun_triggered_no_fires cfg ts _ (silenceTick_fired_triggered cfg s t hfire)
      rw [List.find?_cons_of_pos _ (by simpa using hth)]
      simp [hfire, hrest]
    · have hnof : (silenceTick cfg s t).2 = false := by
        rw [silenceTick_fired_eq, htru]
        simp [hsp, hth]
      have hsp' : (silenceTick cfg s t).1.lastSpokenAt = some L := by
        rw [silenceTick_lastSpokenAt, hsp]
      have htr' : (silenceTick cfg s t).1.pauseTriggered = false := by
        rw [silenceTick_triggered_eq, htr, hnof]
        rfl
      have hcd' : ∀ u ∈ ts, cooldownBlocks cfg (silenceTick cfg s t).1 u = false := by
        intro u hu
        rw [cooldownBlocks_congr cfg _ s u (silenceTick_lastSuggestionTime cfg s t)]
        exact hcd u (by simp [hu])
      rw [List.find?_cons_of_neg _ (by simpa using hth)]
      simp only [hnof, Bool.false_eq_true, if_false]
      exact ih _ hsp' htr' hcd'

/-- The detector state at mount (useSilenceDetection.ts lines 37-44 with the
`lastSpokenAt` prop still `null`). -/
def initialSilenceState : SilenceState :=
  { lastSpokenAt := none, pauseTriggered := false, lastSuggestionTime := none,
    silenceDuration := 0, isPaused := false, isInCooldown := false }

theorem silenceTick_null_lastSpokenAt (cfg : SilenceCfg) (s : SilenceState) (now : Int)
    (h : s.lastSpokenAt = none) :
    (silenceTick cfg s now).2 = false
      ∧ (silenceTick cfg s now).1.silenceDuration = s.silenceDuration
      ∧ (silenceTick cfg s now).1.lastSpokenAt = none := by
  refine ⟨?_, ?_, ?_⟩
  · rw [silenceTick_fired_eq]
    simp [h, truthy]
  · rw [silenceTick_silenceDuration_eq]
    simp [h, truthy]
  · rw [silenceTick_lastSpokenAt, h]

/-! ## Claims C1, C2, C9, C10 — the pause & cooldown detector -/

/-- **C1.** Within one silence episode (a run of detector ticks with no advance
of `lastSpokenAt`), `onPauseDetected` is invoked at most once; if
`lastSpokenAt` is set and every tick of the run is outside cooldown, the
callback fires exactly at the first tick `t` with `t - lastSpokenAt ≥
silenceThreshold` (inclusive comparison) and at no other tick; the tick handler
never clears the triggered flag, and an advance of `lastSpokenAt` (a `speak`
event with a fresh truthy timestamp) clears it, restarting the episode. -/
theorem claim_C1_single_pause_per_episode (cfg : SilenceCfg) :
    (∀ (s : SilenceState) (ts : List Int), ((tickRun cfg s ts).2).length ≤ 1)
    ∧ (∀ (s : SilenceState) (L : Int) (ts : List Int),
        s.lastSpokenAt = some L → L ≠ 0 → s.pauseTriggered = false →
        (∀ t ∈ ts, cooldownBlocks cfg s t = false) →
        (tickRun cfg s ts).2
          = (ts.find? (fun t => decide (cfg.silenceThreshold ≤ t - L))).toList)
    ∧ (∀ (s : SilenceState) (now : Int), s.pauseTriggered = true →
        (silenceTick cfg s now).1.pauseTriggered = true)
    ∧ (∀ (s : SilenceState) (t : Int), t ≠ 0 → some t ≠ s.lastSpokenAt →
        (speak s t).pauseTriggered = false) := by
  refine ⟨fun s ts => tickRun_fires_length_le_one cfg ts s,
    fun s L ts hsp hL htr hcd => tickRun_fires_eq_find cfg L hL ts s hsp htr hcd,
    fun s now h => silenceTick_triggered_mono cfg s now h,
    fun s t ht hne => ?_⟩
  simp [speak, ht, hne]

theorem claim_C1_witness :
    (tickRun ⟨5000, 30000⟩
        ⟨some 1000, false, none, 0, false, false⟩ [1100, 3000, 6000, 6100, 9000]).2
      = [6000] := by
  have h := (claim_C1_single_pause_per_episode ⟨5000, 30000⟩).2.1
    ⟨some 1000, false, none, 0, false, false⟩ 1000 [1100, 3000, 6000, 6100, 9000]
    rfl (by decide) rfl (by decide)
  rw [h]
  decide

/-- **C2.** `updateLastSuggestionTime` at time `t0` (with a positive cooldown
period) stamps the suggestion time and raises the cooldown flag; ticks never
change the stamp; every tick with `now - t0 < cooldownPeriod` fires no pause
event regardless of the silence duration and reports `isInCooldown = true`
(so the displayed `silenceProgress` is 0), a tick with
`now - t0 ≥ cooldownPeriod` reports `isInCooldown = false`, and outside
cooldown the displayed progress is `min (silenceDuration / silenceThreshold) 1`. -/
theorem claim_C2_cooldown_suppression (cfg : SilenceCfg) :
    (∀ (s : SilenceState) (t0 : Int), 0 < cfg.cooldownPeriod →
      (updateLastSuggestionTime cfg s t0).lastSuggestionTime = some t0
        ∧ (updateLastSuggestionTime cfg s t0).isInCooldown = true)
    ∧ (∀ (s : SilenceState) (now : Int),
        (silenceTick cfg s now).1.lastSuggestionTime = s.lastSuggestionTime)
    ∧ (∀ (s : SilenceState) (t0 now : Int), 0 < cfg.cooldownPeriod →
        s.lastSuggestionTime = some t0 → t0 ≠ 0 → now - t0 < cfg.cooldownPeriod →
        (silenceTick cfg s now).2 = false
          ∧ (silenceTick cfg s now).1.isInCooldown = true)
    ∧ (∀ (s : SilenceState) (t0 now : Int), 0 < cfg.cooldownPeriod →
        s.lastSuggestionTime = some t0 → t0 ≠ 0 → cfg.cooldownPeriod ≤ now - t0 →
        (silenceTick cfg s now).1.isInCooldown = false)
    ∧ (∀ d th : ℚ, silenceProgress true d th = 0
        ∧ silenceProgress false d th = min (d / th) 1) := by
  refine ⟨fun s t0 hcd => ?_, fun s now => silenceTick_lastSuggestionTime cfg s now,
    fun s t0 now hcd hst ht0 hlt => ⟨?_, ?_⟩, fun s t0 now hcd hst ht0 hge => ?_,
    fun d th => ⟨rfl, rfl⟩⟩
  · constructor <;> simp [updateLastSuggestionTime, not_le.mpr hcd]
  · rw [silenceTick_fired_eq]
    have : cooldownBlocks cfg s now = true := by
      simp [cooldownBlocks, hst, truthy, ht0, hlt, hcd]
    simp [this]
  · rw [silenceTick_isInCooldown_eq]
    have htru : truthy s.lastSuggestionTime = true := by simp [hst, truthy, ht0]
    simp [htru, hcd, hst, hlt, truthy, ht0]
  · rw [silenceTick_isInCooldown_eq]
    have htru : truthy s.lastSuggestionTime = true := by simp [hst, truthy, ht0]
    simp [htru, hcd, hst, not_lt.mpr hge, truthy, ht0]

theorem claim_C2_witness :
    (updateLastSuggestionTime ⟨5000, 30000⟩ initialSilenceState 40000).lastSuggestionTime
        = some 40000
      ∧ (silenceTick ⟨5000, 30000⟩
          ⟨some 1000, false, some 40000, 0, false, true⟩ 50000).2 = false
      ∧ (silenceTick ⟨5000, 30000⟩
          ⟨some 1000, false, some 40000, 0, false, true⟩ 50000).1.isInCooldown = true := by
  refine ⟨((claim_C2_cooldown_suppression ⟨5000, 30000⟩).1 initialSilenceState 40000
    (by decide)).1, ?_, ?_⟩
  · exact ((claim_C2_cooldown_suppression ⟨5000, 30000⟩).2.2.1
      ⟨some 1000, false, some 40000, 0, false, true⟩ 40000 50000
      (by decide) rfl (by decide) (by decide)).1
  · exact ((claim_C2_cooldown_suppression ⟨5000, 30000⟩).2.2.1
      ⟨some 1000, false, some 40000, 0, false, true⟩ 40000 50000
      (by decide) rfl (by decide) (by decide)).2

/-- **C9, counterexample.** `resetPause` does not clear the cooldown state:
after `resetPause` at time 2000 on a state whose cooldown stamp is 1000 (with
`cooldownPeriod = 30000`), the stamp is still present, and a tick at time
10000 — whose silence span 8000 exceeds the threshold 5000 — is still
suppressed by the previously started cooldown, contradicting the claim that
after the call pause triggers are no longer suppressed. -/
theorem claim_C9_counterexample :
    (resetPause ⟨some 1000, true, some 1000, 9000, true, true⟩ 2000).lastSuggestionTime
        = some 1000
      ∧ (resetPause ⟨some 1000, true, some 1000, 9000, true, true⟩ 2000).pauseTriggered
        = false
      ∧ (silenceTick ⟨5000, 30000⟩
          (resetPause ⟨some 1000, true, some 1000, 9000, true, true⟩ 2000) 10000).2
        = false := by
  refine ⟨rfl, rfl, by decide⟩

/-- **C9, amended.** `resetPause` clears the triggered flag and the paused
flag, rebases `lastSpokenAt` to the current time and resets the reported
`silenceDuration` to 0, but leaves the cooldown state (`lastSuggestionTime`,
`isInCooldown`) untouched: a previously started cooldown continues to
suppress pause triggers after the call. -/
theorem claim_C9_resetPause_behavior :
    (∀ (s : SilenceState) (now : Int),
      (resetPause s now).isPaused = false
        ∧ (resetPause s now).pauseTriggered = false
        ∧ (resetPause s now).lastSpokenAt = some now
        ∧ (resetPause s now).silenceDuration = 0
        ∧ (resetPause s now).lastSuggestionTime = s.lastSuggestionTime
        ∧ (resetPause s now).isInCooldown = s.isInCooldown)
    ∧ (∀ (cfg : SilenceCfg) (s : SilenceState) (now t0 t1 : Int),
        0 < cfg.cooldownPeriod → s.lastSuggestionTime = some t0 → t0 ≠ 0 →
        t1 - t0 < cfg.cooldownPeriod →
        (silenceTick cfg (resetPause s now) t1).2 = false) := by
  refine ⟨fun s now => ⟨rfl, rfl, rfl, rfl, rfl, rfl⟩,
    fun cfg s now t0 t1 hcd hst ht0 hlt => ?_⟩
  rw [silenceTick_fired_eq]
  have : cooldownBlocks cfg (resetPause s now) t1 = true := by
    simp [cooldownBlocks, resetPause, hst, truthy, ht0, hlt, hcd]
  simp [this]

theorem claim_C9_witness :
    (silenceTick ⟨5000, 30000⟩
        (resetPause ⟨some 1000, false, some 1500, 9000, false, true⟩ 2000) 10000).2
      = false := by
  exact claim_C9_resetPause_behavior.2 ⟨5000, 30000⟩
    ⟨some 1000, false, some 1500, 9000, false, true⟩ 2000 1500 10000
    (by decide) rfl (by decide) (by decide)

/-- **C10.** While listening, if `lastSpokenAt` was never set (the detector
still holds `null`) and `resetPause` was never called, no run of detector
ticks ever invokes `onPauseDetected`, the reported `silenceDuration` stays 0
and `lastSpokenAt` stays `null`, however long the run: silence is only
measured from the first observed speech. -/
theorem claim_C10_null_lastSpokenAt_never_fires (cfg : SilenceCfg) (ts : List Int) :
    (tickRun cfg initialSilenceState ts).2 = []
      ∧ ((tickRun cfg initialSilenceState ts).1).silenceDuration = 0
      ∧ ((tickRun cfg initialSilenceState ts).1).lastSpokenAt = none := by
  suffices h : ∀ (ts : List Int) (s : SilenceState), s.lastSpokenAt = none →
      s.silenceDuration = 0 →
      (tickRun cfg s ts).2 = [] ∧ ((tickRun cfg s ts).1).silenceDuration = 0
        ∧ ((tickRun cfg s ts).1).lastSpokenAt = none by
    exact h ts initialSilenceState rfl rfl
  intro ts
  induction ts with
  | nil => intro s h1 h2; exact ⟨rfl, h2, h1⟩
  | cons t ts ih =>
    intro s h1 h2
    obtain ⟨hf, hd, hn⟩ := silenceTick_null_lastSpokenAt cfg s t h1
    have := ih (silenceTick cfg s t).1 hn (by rw [hd, h2])
    simp only [tickRun, hf]
    simpa using this

/-! ## Turn buffer — src/echo-ai/src/hooks/useSpeechRecognition.ts (lines 23-49, 90-102) -/

structure ConversationTurn where
  text : String
  timestamp : Int
deriving DecidableEq

def BUFFER_DURATION : Int := 60000

/-- Insertion of a finalized recognition result (lines 94-100): append the
trimmed turn stamped `now`, then evict entries at or beyond the rolling
window (`turn.timestamp > cutoff`, a strict comparison). -/
def insertTurn (buf : List ConversationTurn) (text : String) (now : Int) :
    List ConversationTurn :=
  let newTurn : ConversationTurn := { text := text.trim, timestamp := now }
  (buf ++ [newTurn]).filter (fun turn => decide (now - BUFFER_DURATION < turn.timestamp))

/-- The periodic `cleanBuffer` sweep (lines 46-49). -/
def cleanBuffer (buf : List ConversationTurn) (now : Int) : List ConversationTurn :=
  buf.filter (fun turn => decide (now - BUFFER_DURATION < turn.timestamp))

/-- Entries are in non-decreasing timestamp order. -/
def timeOrdered (buf : List ConversationTurn) : Prop :=
  buf.Pairwise (fun a b => a.timestamp ≤ b.timestamp)

instance (buf : List ConversationTurn) : Decidable (timeOrdered buf) :=
  inferInstanceAs (Decidable (buf.Pairwise _))

/-- **C7.** After an insert or a periodic sweep at time `now`, every entry of
the turn buffer is strictly newer than `now - BUFFER_DURATION`; and if the
buffer was in non-decreasing timestamp order with no entry from the future,
it remains in non-decreasing timestamp order after either operation. -/
theorem claim_C7_buffer_window_invariant :
    (∀ (buf : List ConversationTurn) (text : String) (now : Int),
        ∀ turn ∈ insertTurn buf text now, now - BUFFER_DURATION < turn.timestamp)
    ∧ (∀ (buf : List ConversationTurn) (now : Int),
        ∀ turn ∈ cleanBuffer buf now, now - BUFFER_DURATION < turn.timestamp)
    ∧ (∀ (buf : List ConversationTurn) (text : String) (now : Int),
        timeOrdered buf → (∀ turn ∈ buf, turn.timestamp ≤ now) →
        timeOrdered (insertTurn buf text now))
    ∧ (∀ (buf : List ConversationTurn) (now : Int),
        timeOrdered buf → timeOrdered (cleanBuffer buf now)) := by
  refine ⟨fun buf text now turn h => ?_, fun buf now turn h => ?_,
    fun buf text now hord hle => ?_, fun buf now hord => ?_⟩
  · simp only [insertTurn, List.mem_filter, decide_eq_true_eq] at h
    exact h.2
  · simp only [cleanBuffer, List.mem_filter, decide_eq_true_eq] at h
    exact h.2
  · have happ : timeOrdered (buf ++ [⟨text.trim, now⟩]) := by
      unfold timeOrdered at hord ⊢
      rw [List.pairwise_append]
      refine ⟨hord, List.pairwise_singleton _ _, ?_⟩
      intro a ha b hb
      simp only [List.mem_singleton] at hb
      subst hb
      exact hle a ha
    exact List.Pairwise.sublist (List.filter_sublist _) happ
  · exact List.Pairwise.sublist (List.filter_sublist _) hord

theorem claim_C7_witness :
    timeOrdered (insertTurn [⟨"hi", 1000⟩, ⟨"there", 2000⟩] " yo " 61500)
      ∧ ∀ turn ∈ insertTurn [⟨"hi", 1000⟩, ⟨"there", 2000⟩] " yo " 61500,
          61500 - BUFFER_DURATION < turn.timestamp := by
  constructor
  · exact claim_C7_buffer_window_invariant.2.2.1 [⟨"hi", 1000⟩, ⟨"there", 2000⟩]
      " yo " 61500 (by decide) (by decide)
  · exact claim_C7_buffer_window_invariant.1 [⟨"hi", 1000⟩, ⟨"there", 2000⟩] " yo " 61500

/-! ## Transcription lifecycle retry controller — useSpeechRecognition.ts (lines 36-43, 73-80, 124-173) -/

def maxNetworkRetries : Nat := 3

def errNotAllowed : String := "not-allowed"
def errNoSpeech : String := "no-speech"
def errNetwork : String := "network"
def msgPermissionDenied : String := "Microphone permission denied"
def msgNetworkTerminal : String := "Network error. Tap to restart listening."
def msgNetworkRetrying : String := "Network error - retrying..."
def msgErrorHead : String := "Speech recognition error: "

structure RecState where
  retryCount : Nat
  shouldRestart : Bool
  lastErrorType : Option String
  lastErrorAt : Int
  backoffMs : Int
  error : Option String
  isListening : Bool
  hasRecognition : Bool
deriving DecidableEq

/-- `recognition.onstart` (lines 73-80). -/
def recOnStart (s : RecState) : RecState :=
  { s with isListening := true, shouldRestart := true, backoffMs := 1000,
           retryCount := 0, lastErrorType := none }

/-- `recognition.onerror` (lines 124-148). -/
def recOnError (s : RecState) (err : String) (now : Int) : RecState :=
  let s1 := { s with lastErrorAt := now, lastErrorType := some err }
  if err = errNotAllowed then
    { s1 with error := some msgPermissionDenied, isListening := false,
              shouldRestart := false }
  else if err = errNoSpeech then s1
  else if err = errNetwork then
    let s2 := { s1 with retryCount := s1.retryCount + 1 }
    if maxNetworkRetries < s2.retryCount then
      { s2 with error := some msgNetworkTerminal, shouldRestart := false }
    else
      { s2 with error := some msgNetworkRetrying, shouldRestart := true }
  else { s1 with error := some (msgErrorHead ++ err) }

/-- `recognition.onend` (lines 150-173).  The second component is the delay of
the restart scheduled by the handler, `none` when no restart is scheduled. -/
def recOnEnd (s : RecState) (now : Int) : RecState × Option Int :=
  if s.hasRecognition = true ∧ s.shouldRestart = true then
    if s.lastErrorType = some errNetwork ∧ maxNetworkRetries < s.retryCount then
      ({ s with isListening := false }, none)
    else
      (s, some (if now - s.lastErrorAt < 3000 then s.backoffMs else 0))
  else (s, none)

/-- The scheduled restart callback succeeding (lines 163-167): the engine is
started again and the backoff doubles, capped at 15000 ms. -/
def recRestartFired (s : RecState) : RecState :=
  { s with backoffMs := min (s.backoffMs * 2) 15000 }

/-- One engine fault cycle: an error event followed by the session end event. -/
def faultCycle (s : RecState) (err : String) (tErr tEnd : Int) : RecState × Option Int :=
  recOnEnd (recOnError s err tErr) tEnd

/-- **C8.** Starting from a freshly started session (`retryCount = 0`,
auto-restart armed), four consecutive `network` faults with
`maxNetworkRetries = 3`: the controller schedules a restart after each of the
first three faults, schedules none after the fourth, and surfaces the
terminal error message. -/
theorem claim_C8_network_retry_bound (s : RecState)
    (h0 : s.retryCount = 0) (h1 : s.shouldRestart = true)
    (h2 : s.hasRecognition = true)
    (t1 u1 t2 u2 t3 u3 t4 u4 : Int) :
    let c1 := faultCycle s errNetwork t1 u1
    let c2 := faultCycle (recRestartFired c1.1) errNetwork t2 u2
    let c3 := faultCycle (recRestartFired c2.1) errNetwork t3 u3
    let c4 := faultCycle (recRestartFired c3.1) errNetwork t4 u4
    c1.2.isSome = true ∧ c2.2.isSome = true ∧ c3.2.isSome = true
      ∧ c4.2 = none ∧ c4.1.error = some msgNetworkTerminal
      ∧ c4.1.shouldRestart = false := by
  simp [faultCycle, recOnError, recOnEnd, recRestartFired, errNetwork,
    errNotAllowed, errNoSpeech, maxNetworkRetries, msgNetworkTerminal,
    msgNetworkRetrying, h0, h1, h2]

theorem claim_C8_witness :
    (faultCycle
      (recRestartFired
        (faultCycle
          (recRestartFired
            (faultCycle
              (recRestartFired
                (faultCycle ⟨0, true, none, 0, 1000, none, true, true⟩
                  errNetwork 100 110).1)
              errNetwork 200 210).1)
          errNetwork 300 310).1)
      errNetwork 400 410).2 = none := by
  exact (claim_C8_network_retry_bound ⟨0, true, none, 0, 1000, none, true, true⟩
    rfl rfl rfl 100 110 200 210 300 310 400 410).2.2.2.1

/-! ## Session transport reconnection — src/echo-ai/src/hooks/useWebSocket.ts (lines 87-111, 174-189) -/

def maxReconnectAttempts : Nat := 5

structure WsState where
  reconnectAttempts : Nat
deriving DecidableEq

/-- `ws.onopen` (lines 105-111): a successful open resets the attempt counter. -/
def wsOnOpen (s : WsState) : WsState :=
  { reconnectAttempts := 0 }

/-- `ws.onclose` (lines 174-189): a close with code ≠ 1000 while under the
attempt bound schedules a reconnect after `min(1000·2^attempts, 30000)` ms;
the scheduled timeout increments the counter just before reconnecting, which
is merged into this step because in a run of consecutive involuntary closes
every scheduled timeout has fired before the next close arrives.  The second
component is the scheduled delay (`none` when no retry is scheduled). -/
def wsOnClose (s : WsState) (code : Nat) : WsState × Option Nat :=
  if code ≠ 1000 ∧ s.reconnectAttempts < maxReconnectAttempts then
    ({ reconnectAttempts := s.reconnectAttempts + 1 },
      some (min (1000 * 2 ^ s.reconnectAttempts) 30000))
  else (s, none)

/-- A run of `k` consecutive involuntary closes with the given close code,
collecting the scheduled reconnect delays in order. -/
def closeRun (s : WsState) (code : Nat) : Nat → WsState × List (Option Nat)
  | 0 => (s, [])
  | Nat.succ k =>
    let step := wsOnClose s code
    let rest := closeRun step.1 code k
    (rest.1, step.2 :: rest.2)

theorem closeRun_delays (code : Nat) (hc : code ≠ 1000) :
    ∀ (k n : Nat),
      (closeRun ⟨n⟩ code k).2
        = (List.range k).map
            (fun i => if n + i < maxReconnectAttempts
                      then some (min (1000 * 2 ^ (n + i)) 30000) else none) := by
  intro k
  induction k with
  | zero => intro n; rfl
  | succ k ih =>
    intro n
    by_cases hn : n < maxReconnectAttempts
    · have hstep : wsOnClose ⟨n⟩ code
          = (⟨n + 1⟩, some (min (1000 * 2 ^ n) 30000)) := by
        simp [wsOnClose, hc, hn]
      simp only [closeRun, hstep, ih (n + 1), List.range_succ_eq_map, List.map_cons,
        List.map_map]
      congr 1
      · simp [hn]
      · apply List.map_congr_left
        intro i _
        have : n + 1 + i = n + (i + 1) := by omega
        simp [Function.comp, this]
    · have hstep : wsOnClose ⟨n⟩ code = (⟨n⟩, none) := by
        simp [wsOnClose, hn]
      simp only [closeRun, hstep, ih n, List.range_succ_eq_map, List.map_cons,
        List.map_map]
      congr 1
      · simp [hn]
      · apply List.map_congr_left
        intro i _
        have h1 : ¬ n + (i + 1) < maxReconnectAttempts := by omega
        have h2 : ¬ n + i < maxReconnectAttempts := by omega
        simp [Function.comp, h1, h2]

/-- **C5.** After a successful open the attempt counter is 0; a run of `k`
consecutive involuntary closes (code ≠ 1000) then schedules, for its `n`-th
close (counting from 0), a reconnect after `min(1000·2^n, 30000)` ms while
`n < 5`, and schedules no further automatic retry once the bounded maximum
attempt count 5 is reached; an intentional close (code 1000) never schedules
a retry. -/
theorem claim_C5_reconnect_backoff :
    (∀ s : WsState, (wsOnOpen s).reconnectAttempts = 0)
    ∧ (∀ (s : WsState) (code k : Nat), code ≠ 1000 →
        (closeRun (wsOnOpen s) code k).2
          = (List.range k).map
              (fun n => if n < maxReconnectAttempts
                        then some (min (1000 * 2 ^ n) 30000) else none))
    ∧ (∀ (s : WsState) (code : Nat), maxReconnectAttempts ≤ s.reconnectAttempts →
        wsOnClose s code = (s, none))
    ∧ (∀ s : WsState, wsOnClose s 1000 = (s, none)) := by
  refine ⟨fun s => rfl, fun s code k hc => ?_, fun s code h => ?_, fun s => ?_⟩
  · have := closeRun_delays code hc k 0
    simpa [wsOnOpen] using this
  · simp [wsOnClose, not_lt.mpr h]
  · simp [wsOnClose]

theorem claim_C5_witness :
    (closeRun (wsOnOpen ⟨3⟩) 1006 7).2
      = [some 1000, some 2000, some 4000, some 8000, some 16000, none, none] := by
  have h := claim_C5_reconnect_backoff.2.1 ⟨3⟩ 1006 7 (by decide)
  rw [h]
  decide

/-! ## Transport snapshot minimization — src/echo-ai/src/hooks/useWebSocket.ts (lines 9-73, 211-230) -/

/-- The filler-word stoplist (lines 10-13). -/
def FILLER_WORDS : List String :=
  ["uh", "um", "hmm", "haan", "ah", "eh", "er", "like", "you know",
   "basically", "actually", "literally", "so", "well", "right"]

structure ConversationSnapshot where
  lastTurns : List ConversationTurn
  lastSpokenAt : Option Int
  detectedLanguage : String
deriving DecidableEq

def spaceSep : String := " "

/- The string pipeline is embedded over the character list (`String.data`)
with structurally recursive operations, so that concrete runs compute inside
the kernel; each definition mirrors the JavaScript string operation used by
the source. -/

/-- `String.prototype.toLowerCase` (character-wise). -/
def toLowerStr (s : String) : String :=
  String.mk (s.data.map Char.toLower)

def splitWsAux : List Char → List Char → List String
  | [], acc => [String.mk acc.reverse]
  | c :: cs, acc =>
    if c.isWhitespace then String.mk acc.reverse :: splitWsAux cs []
    else splitWsAux cs (c :: acc)

/-- `split(/\s+/)` up to empty fragments: splitting at every whitespace
character.  (JavaScript splits on maximal whitespace runs, keeping boundary
empty fragments; the difference to the character-wise split is only extra
empty fragments, which the pipeline below discards.) -/
def splitWs (s : String) : List String :=
  splitWsAux s.data []

/-- `String.prototype.trim`: strip leading and trailing whitespace. -/
def trimStr (s : String) : String :=
  String.mk (((s.data.dropWhile Char.isWhitespace).reverse.dropWhile
    Char.isWhitespace).reverse)

/-- `Array.prototype.join(' ')`. -/
def joinWithSpace : List String → String
  | [] => ""
  | [w] => w
  | w :: ws => w ++ spaceSep ++ joinWithSpace ws

/-- The per-turn text cleaning of `cleanTranscript` (lines 57-64):
lower-case, split on whitespace, drop stoplist words, re-join, trim.
(Empty split fragments are dropped before the join; in JavaScript they are
not stoplist members, so they survive the filter, are re-joined as boundary
spaces and removed by the final trim — the composed result is the same.) -/
def cleanTurnText (s : String) : String :=
  let words := (splitWs (toLowerStr s)).filter (fun w => w ≠ "")
  trimStr (joinWithSpace (words.filter (fun w => ¬ FILLER_WORDS.contains w)))

/-- `cleanTranscript` (lines 55-67): clean each turn, drop turns that become
empty. -/
def cleanTranscript (turns : List ConversationTurn) : List ConversationTurn :=
  (turns.map (fun turn => { turn with text := cleanTurnText turn.text })).filter
    (fun turn => 0 < turn.text.length)

/-- `getRecentTurns` (lines 70-73): keep only the last `maxTurns` cleaned
turns (`Array.slice(-maxTurns)`). -/
def getRecentTurns (turns : List ConversationTurn) (maxTurns : Nat) :
    List ConversationTurn :=
  let cleaned := cleanTranscript turns
  cleaned.drop (cleaned.length - maxTurns)

/-- `sendPauseDetected` (lines 211-230): while the socket is open, the
outgoing snapshot carries the minimized turns, and `lastSpokenAt` and
`detectedLanguage` verbatim from the caller's snapshot; when not open,
nothing is sent. -/
def sendPauseDetected (isOpen : Bool) (snapshot : ConversationSnapshot) :
    Option ConversationSnapshot :=
  if isOpen then
    some { lastTurns := getRecentTurns snapshot.lastTurns 4,
           lastSpokenAt := snapshot.lastSpokenAt,
           detectedLanguage := snapshot.detectedLanguage }
  else none

/-- The caller-side construction of the outgoing `lastSpokenAt`
(src/unnamed/part_002 line 133): `lastSpokenAt ? Math.floor(lastSpokenAt /
1000) : null` — the second-precision truncation lives in the caller, not in
the transport. -/
def callerLastSpokenAt (lastSpokenAt : Option Int) : Option Int :=
  match lastSpokenAt with
  | some t => if t ≠ 0 then some (Int.fdiv t 1000) else none
  | none => none

/-- **C6, counterexample.** The transport's send operation forwards
`lastSpokenAt` unchanged: two snapshots that differ only in the sub-second
part of `lastSpokenAt` (same integer second 1737040000) produce different
outgoing payloads, so the outgoing field carries more than integer-second
precision, contradicting the claim that the transport's send truncates it. -/
theorem claim_C6_counterexample :
    sendPauseDetected true ⟨[], some 1737040000123, "english"⟩
        = some ⟨[], some 1737040000123, "english"⟩
      ∧ sendPauseDetected true ⟨[], some 1737040000456, "english"⟩
        = some ⟨[], some 1737040000456, "english"⟩
      ∧ Int.fdiv 1737040000123 1000 = Int.fdiv 1737040000456 1000
      ∧ sendPauseDetected true ⟨[], some 1737040000123, "english"⟩
        ≠ sendPauseDetected true ⟨[], some 1737040000456, "english"⟩ := by
  refine ⟨rfl, rfl, by decide, by decide⟩

/-- **C6, amended.** For every snapshot passed to `sendPauseDetected` while
the connection is open, the outgoing turns equal the input turns lower-cased
with stoplist filler words removed, turns that become empty dropped, and the
result truncated to the most recent 4 turns — this minimization applied
inside the transport's send operation; the outgoing `lastSpokenAt`, however,
is forwarded by the transport unchanged: its truncation to integer-second
precision (`Math.floor(ms / 1000)`) is performed by the caller when it builds
the snapshot, not by the transport. -/
theorem claim_C6_snapshot_minimization :
    (∀ snapshot : ConversationSnapshot,
      sendPauseDetected true snapshot
        = some { lastTurns := getRecentTurns snapshot.lastTurns 4,
                 lastSpokenAt := snapshot.lastSpokenAt,
                 detectedLanguage := snapshot.detectedLanguage })
    ∧ (∀ snapshot : ConversationSnapshot, sendPauseDetected false snapshot = none)
    ∧ (∀ turns : List ConversationTurn, (getRecentTurns turns 4).length ≤ 4)
    ∧ (∀ (turns : List ConversationTurn), ∀ turn ∈ getRecentTurns turns 4,
        0 < turn.text.length
          ∧ ∃ t0 ∈ turns, turn.text = cleanTurnText t0.text
              ∧ turn.timestamp = t0.timestamp)
    ∧ (∀ turns : List ConversationTurn,
        getRecentTurns turns 4
          = (cleanTranscript turns).drop ((cleanTranscript turns).length - 4))
    ∧ (∀ t1 t2 : Int, 0 < t1 → 0 < t2 → Int.fdiv t1 1000 = Int.fdiv t2 1000 →
        callerLastSpokenAt (some t1) = callerLastSpokenAt (some t2)) := by
  refine ⟨fun snapshot => rfl, fun snapshot => rfl, fun turns => ?_,
    fun turns turn hmem => ?_, fun turns => rfl, fun t1 t2 h1 h2 heq => ?_⟩
  · simp only [getRecentTurns, List.length_drop]
    omega
  · have hmem' : turn ∈ cleanTranscript turns := by
      simp only [getRecentTurns] at hmem
      exact List.mem_of_mem_drop hmem
    simp only [cleanTranscript, List.mem_filter, List.mem_map,
      decide_eq_true_eq] at hmem'
    obtain ⟨⟨t0, ht0, hturn⟩, hlen⟩ := hmem'
    refine ⟨hlen, t0, ht0, ?_, ?_⟩
    · rw [← hturn]
    · rw [← hturn]
  · have hn1 : t1 ≠ 0 := by omega
    have hn2 : t2 ≠ 0 := by omega
    simp [callerLastSpokenAt, hn1, hn2, heq]

def demoTurns : List ConversationTurn :=
  [⟨"Um hello there", 1⟩, ⟨"uh", 2⟩, ⟨"so basically", 3⟩,
   ⟨"The weather is nice", 4⟩, ⟨"um yeah", 5⟩, ⟨"See you tomorrow", 6⟩]

theorem claim_C6_witness :
    callerLastSpokenAt (some 1737040000123) = callerLastSpokenAt (some 1737040000999)
      ∧ (0 < (ConversationTurn.mk "hello there" 1).text.length
          ∧ ∃ t0 ∈ demoTurns,
              (ConversationTurn.mk "hello there" 1).text = cleanTurnText t0.text
                ∧ (ConversationTurn.mk "hello there" 1).timestamp = t0.timestamp) := by
  refine ⟨claim_C6_snapshot_minimization.2.2.2.2.2 1737040000123 1737040000999
      (by decide) (by decide) (by decide),
    claim_C6_snapshot_minimization.2.2.2.1 demoTurns ⟨"hello there", 1⟩ ?_⟩
  decide

/-! ## Streaming playback scheduler — src/src/hooks/useStreamingAudio.ts (lines 51-181) -/

/-- The drain loop of `processQueue` (lines 91-140).  Each queued chunk is
given as the pair of the engine clock value `ctx.currentTime` read when the
chunk is scheduled and its decode outcome (`none`: `decodeAudioData` failed,
the chunk is skipped; `some d`: decoded duration `d` seconds).  A decoded
chunk is scheduled to start at `max(currentTime, nextPlayTime)` and
`nextPlayTime` advances by its duration (lines 107-112).  Returns the list of
scheduled `(start, duration)` windows in order and the final cursor. -/
def processChunks : List (ℚ × Option ℚ) → ℚ → List (ℚ × ℚ) × ℚ
  | [], slot => ([], slot)
  | (_, none) :: rest, slot => processChunks rest slot
  | (clk, some d) :: rest, slot =>
    let start := max clk slot
    let out := processChunks rest (start + d)
    ((start, d) :: out.1, out.2)

structure StreamState where
  chunkQueue : List (Option ℚ)
  sourceNodes : List Nat
  isStreaming : Bool
  isProcessing : Bool
  nextPlayTime : ℚ
  playbackStarted : Bool
  isPlaying : Bool
deriving DecidableEq

/-- `stop` (lines 159-181): halt every tracked source node, clear the queue
and all flags, and reset the timeline cursor to 0.  The second component is
the list of source nodes that were issued a `stop()` call. -/
def streamStop (s : StreamState) : StreamState × List Nat :=
  ({ chunkQueue := [], sourceNodes := [], isStreaming := false,
     isProcessing := false, nextPlayTime := 0, playbackStarted := false,
     isPlaying := false },
   s.sourceNodes)

theorem processChunks_head_start_ge (inp : List (ℚ × Option ℚ)) (slot : ℚ) :
    ∀ w, (processChunks inp slot).1.head? = some w → slot ≤ w.1 := by
  induction inp generalizing slot with
  | nil => intro w h; exact absurd h (by simp [processChunks])
  | cons p rest ih =>
    intro w h
    rcases p with ⟨clk, _ | d⟩
    · exact ih slot w h
    · simp only [processChunks, List.head?_cons, Option.some.injEq] at h
      rw [← h]
      exact le_max_right clk slot

theorem processChunks_chain_nonoverlap (inp : List (ℚ × Option ℚ)) (slot : ℚ) :
    List.Chain' (fun a b : ℚ × ℚ => a.1 + a.2 ≤ b.1) (processChunks inp slot).1 := by
  induction inp generalizing slot with
  | nil => exact List.chain'_nil
  | cons p rest ih =>
    rcases p with ⟨clk, _ | d⟩
    · exact ih slot
    · simp only [processChunks]
      rw [List.chain'_cons']
      exact ⟨fun b hb => processChunks_head_start_ge rest _ b hb, ih _⟩

theorem processChunks_chain_order (inp : List (ℚ × Option ℚ)) (slot : ℚ)
    (hd : ∀ p ∈ inp, ∀ d : ℚ, p.2 = some d → 0 ≤ d) :
    List.Chain' (fun a b : ℚ × ℚ => a.1 ≤ b.1) (processChunks inp slot).1 := by
  induction inp generalizing slot with
  | nil => exact List.chain'_nil
  | cons p rest ih =>
    have hdrest : ∀ p ∈ rest, ∀ d : ℚ, p.2 = some d → 0 ≤ d :=
      fun q hq => hd q (by simp [hq])
    rcases p with ⟨clk, _ | d⟩
    · exact ih slot hdrest
    · have hd0 : (0:ℚ) ≤ d := hd (clk, some d) (by simp) d rfl
      simp only [processChunks]
      rw [List.chain'_cons']
      refine ⟨fun b hb => ?_, ih _ hdrest⟩
      have := processChunks_head_start_ge rest (max clk slot + d) b hb
      have : max clk slot + d ≤ b.1 := this
      linarith

/-- The timeline "keeps up": every chunk that decodes is scheduled at an
engine clock value no later than the current next-available slot (no chunk
arrives after the already-scheduled audio has run out). -/
def keepsUp : List (ℚ × Option ℚ) → ℚ → Prop
  | [], _ => True
  | (_, none) :: rest, slot => keepsUp rest slot
  | (clk, some d) :: rest, slot => clk ≤ slot ∧ keepsUp rest (slot + d)

theorem keepsUp_head_start (inp : List (ℚ × Option ℚ)) (slot : ℚ)
    (h : keepsUp inp slot) :
    ∀ w, (processChunks inp slot).1.head? = some w → w.1 = slot := by
  induction inp generalizing slot with
  | nil => intro w hw; exact absurd hw (by simp [processChunks])
  | cons p rest ih =>
    intro w hw
    rcases p with ⟨clk, _ | d⟩
    · exact ih slot h w hw
    · simp only [processChunks, List.head?_cons, Option.some.injEq] at hw
      rw [← hw]
      exact max_eq_right h.1

theorem keepsUp_chain_contiguous (inp : List (ℚ × Option ℚ)) (slot : ℚ)
    (h : keepsUp inp slot) :
    List.Chain' (fun a b : ℚ × ℚ => b.1 = a.1 + a.2) (processChunks inp slot).1 := by
  induction inp generalizing slot with
  | nil => exact List.chain'_nil
  | cons p rest ih =>
    rcases p with ⟨clk, _ | d⟩
    · exact ih slot h
    · simp only [processChunks]
      rw [List.chain'_cons']
      have hstart : max clk slot = slot := max_eq_right h.1
      refine ⟨fun b hb => ?_, ih _ ?_⟩
      · have := keepsUp_head_start rest (max clk slot + d) ?_ b hb
        · rw [this]
        · rw [hstart]; exact h.2
      · rw [hstart]; exact h.2

/-- **C3, counterexample.** Scheduled windows are not contiguous regardless of
arrival timing jitter: with the timeline cursor at 0, a first chunk of
duration 1 scheduled at engine clock 0 and a second chunk scheduled at engine
clock 10 (it arrived after the first chunk's audio ran out), the second
window starts at 10, not at 1 where the first window ends — a 9 second gap. -/
theorem claim_C3_counterexample :
    (processChunks [((0:ℚ), some 1), (10, some 1)] 0).1 = [(0, 1), (10, 1)]
      ∧ ((10:ℚ), (1:ℚ)).1 ≠ ((0:ℚ), (1:ℚ)).1 + ((0:ℚ), (1:ℚ)).2 := by
  constructor
  · simp [processChunks]
  · norm_num

/-- **C3, amended.** Chunks queued in order with successful decodes are each
scheduled to start at `max(engineClockNow at scheduling time,
nextAvailableSlot)` and the slot advances by the chunk's decoded duration;
the scheduled windows are pairwise non-overlapping (each starts no earlier
than the previous one ends) and in queue order, regardless of arrival timing
jitter; they are moreover contiguous (each chunk starts exactly when the
previous one ends) provided every decoded chunk is scheduled at an engine
clock value no later than the current next-available slot — a chunk scheduled
after the timeline has run dry instead starts at the engine clock, leaving a
gap. -/
theorem claim_C3_gapless_scheduling :
    (∀ (clk d : ℚ) (rest : List (ℚ × Option ℚ)) (slot : ℚ),
      processChunks ((clk, some d) :: rest) slot
        = ((max clk slot, d) :: (processChunks rest (max clk slot + d)).1,
           (processChunks rest (max clk slot + d)).2))
    ∧ (∀ (inp : List (ℚ × Option ℚ)) (slot : ℚ),
        List.Chain' (fun a b : ℚ × ℚ => a.1 + a.2 ≤ b.1) (processChunks inp slot).1)
    ∧ (∀ (inp : List (ℚ × Option ℚ)) (slot : ℚ),
        (∀ p ∈ inp, ∀ d : ℚ, p.2 = some d → 0 ≤ d) →
        List.Chain' (fun a b : ℚ × ℚ => a.1 ≤ b.1) (processChunks inp slot).1)
    ∧ (∀ (inp : List (ℚ × Option ℚ)) (slot : ℚ), keepsUp inp slot →
        List.Chain' (fun a b : ℚ × ℚ => b.1 = a.1 + a.2) (processChunks inp slot).1) :=
  ⟨fun _ _ _ _ => rfl,
   processChunks_chain_nonoverlap,
   processChunks_chain_order,
   keepsUp_chain_contiguous⟩

theorem claim_C3_witness :
    List.Chain' (fun a b : ℚ × ℚ => b.1 = a.1 + a.2)
      (processChunks [((0:ℚ), some 2), (1, some 3), (4, some 1)] 0).1 := by
  refine claim_C3_gapless_scheduling.2.2.2 [((0:ℚ), some 2), (1, some 3), (4, some 1)] 0 ?_
  refine ⟨by norm_num, by norm_num, by norm_num, trivial⟩

/-- **C4, counterexample.** `stop()` resets the timeline cursor to 0, not to
the engine's current time: the handler reads no clock at all, and with the
engine clock at 5 seconds when `stop()` is called, the stored cursor 0
differs from the engine's current time. -/
theorem claim_C4_counterexample :
    (streamStop ⟨[some 1], [1, 2], true, false, 7, true, true⟩).1.nextPlayTime = 0
      ∧ (0:ℚ) ≠ 5 := by
  constructor
  · rfl
  · norm_num

/-- **C4, amended.** After `stop()` during active playback every tracked
scheduled source node is issued a halt, the pending chunk queue is empty,
`isPlaying` is false, and the timeline cursor is reset to 0 (not to the
engine's current time); since the audio engine's clock is nonnegative, a
subsequent chunk queued at engine clock `now` is scheduled to start at
`max(now, 0) = now`, the engine's current time, beginning a fresh gap-free
timeline. -/
theorem claim_C4_stop_resets_timeline :
    (∀ s : StreamState,
      (streamStop s).1.chunkQueue = []
        ∧ (streamStop s).1.sourceNodes = []
        ∧ (streamStop s).2 = s.sourceNodes
        ∧ (streamStop s).1.isPlaying = false
        ∧ (streamStop s).1.nextPlayTime = 0)
    ∧ (∀ (s : StreamState) (now d : ℚ), 0 ≤ now →
        (processChunks [(now, some d)] (streamStop s).1.nextPlayTime).1
          = [(now, d)]) := by
  refine ⟨fun s => ⟨rfl, rfl, rfl, rfl, rfl⟩, fun s now d h => ?_⟩
  simp [processChunks, streamStop, max_eq_left h]

theorem claim_C4_witness :
    (processChunks [((5:ℚ), some 2)]
        (streamStop ⟨[some 1], [1, 2], true, false, 7, true, true⟩).1.nextPlayTime).1
      = [(5, 2)] := by
  exact claim_C4_stop_resets_timeline.2
    ⟨[some 1], [1, 2], true, false, 7, true, true⟩ 5 2 (by norm_num)

end EchoAI
